import Mathlib

/-!
Verification of the quiz generation/grading core of the quigo backend
(src/main.py), as a shallow embedding in Lean 4.

Strings are modelled as Lean `String`/`List Char`.  Python regular
expressions used by the source are modelled by equivalent character-list
state machines (the relevant regexes are anchored, so leftmost
non-overlapping `re.sub` scanning corresponds to a single left-to-right
pass).  Machine floats are modelled by exact rationals; Python's
`round(x, 2)` is modelled by round-half-to-even on rationals and float
`repr` by shortest decimal rendering of the rounded value.  The external
LLM call (together with the subsequent `json.loads`) is modelled as an
`Except` oracle argument: `.error` stands for any exception raised inside
the corresponding `try` block, `.ok` for a successfully parsed payload.
-/

deriving instance DecidableEq for Except

namespace Quigo

/-! ### Python string primitives -/

/-- Python whitespace (the ASCII portion of `str.strip` / regex class s). -/
def isPyWs (c : Char) : Bool :=
  c == ' ' || c == '\t' || c == '\n' || c == '\r' || c == '\x0b' || c == '\x0c'

/-- Python regex word character (ASCII portion of the w class). -/
def isWordChar (c : Char) : Bool :=
  c.isAlphanum || c == '_'

/-- Python `str.strip()` on a character list. -/
def pyStripL (l : List Char) : List Char :=
  ((l.dropWhile isPyWs).reverse.dropWhile isPyWs).reverse

/-- Python `str.strip()`. -/
def pyStrip (s : String) : String :=
  String.mk (pyStripL s.data)

/-- Python `str.lower()` (ASCII). -/
def pyLower (s : String) : String :=
  String.mk (s.data.map Char.toLower)

/-- Python `str.strip().lower()`, the normalisation used by all objective comparators. -/
def normAns (s : String) : String :=
  pyLower (pyStrip s)

/-- Split a list at the leftmost occurrence of `pat`, Python
`text.split(pat)` restricted to the first separator: returns the part
before the occurrence and the part after it (the separator removed). -/
def splitFirst (pat : List Char) : List Char → Option (List Char × List Char)
  | [] => none
  | c :: rest =>
    if pat.isPrefixOf (c :: rest) then some ([], (c :: rest).drop pat.length)
    else
      match splitFirst pat rest with
      | some (pre, post) => some (c :: pre, post)
      | none => none

/-- Index of the first occurrence of a character, Python `str.find`
(`none` models the return value -1). -/
def pyFindIdx (c : Char) : List Char → Option Nat
  | [] => none
  | x :: rest => if x = c then some 0 else (pyFindIdx c rest).map (· + 1)

/-- Index of the last occurrence of a character, Python `str.rfind`. -/
def pyRFindIdx (c : Char) (l : List Char) : Option Nat :=
  (pyFindIdx c l.reverse).map (fun i => l.length - 1 - i)

/-! ### Sanitizer: `clean_json_text` (src/main.py lines 170-208) -/

/-- The string constant three-backticks. -/
def fence : List Char := "```".data

/-- The string constant three-backticks followed by json. -/
def fenceJson : List Char := "```json".data

/-- Markdown code-block extraction, src/main.py lines 173-181.
If the text contains the json-tagged fence, take what lies between it and
the next fence; otherwise, if a complete fenced block exists, take its
contents with surrounding whitespace stripped (the regex
fence-json?-ws-lazy-group-ws-fence with DOTALL captures exactly the text
between the first fence and the next one, whitespace-trimmed); otherwise,
if a lone fence occurs, take everything after it; otherwise the raw text. -/
def extractBlock (t : List Char) : List Char :=
  match splitFirst fenceJson t with
  | some (_, afterJson) =>
    (match splitFirst fence afterJson with
     | some (pre, _) => pre
     | none => afterJson)
  | none =>
    match splitFirst fence t with
    | none => t
    | some (_, after1) =>
      match splitFirst fence after1 with
      | some (mid, _) => pyStripL mid
      | none => after1

/-- The truncation-repair suffix appended when the closing brace is
missing, src/main.py line 195 (backslash-x7d is the closing brace). -/
def truncClose : List Char := "\n  ]\n\x7d".data

/-- Slice from the first opening brace to the last closing brace
(src/main.py lines 190-197); when the closing brace is missing or
precedes the opening one, keep the tail and append `truncClose`. -/
def sliceBraces (t : List Char) (start : Nat) : List Char :=
  match pyRFindIdx '\x7d' t with
  | none => t.drop start ++ truncClose
  | some e => if e < start then t.drop start ++ truncClose
              else (t.drop start).take (e + 1 - start)

/-- State machine for the trailing-comma repair
`re.sub(comma ws closer -> closer)`, src/main.py line 200.  The `some buf`
state means a comma followed by the whitespace run `buf.reverse` has been
consumed and a closing bracket or brace is awaited; scanning resumes after
a substituted closer, exactly as `re.sub` resumes after a match. -/
def rtcAux : Option (List Char) → List Char → List Char
  | none, [] => []
  | none, c :: rest =>
      if c = ',' then rtcAux (some []) rest else c :: rtcAux none rest
  | some buf, [] => ',' :: buf.reverse
  | some buf, c :: rest =>
      if c = ']' ∨ c = '\x7d' then c :: rtcAux none rest
      else if isPyWs c then rtcAux (some (c :: buf)) rest
      else if c = ',' then ',' :: buf.reverse ++ rtcAux (some []) rest
      else ',' :: buf.reverse ++ c :: rtcAux none rest

/-- Trailing-comma repair on a list. -/
def removeTrailingCommasL (l : List Char) : List Char := rtcAux none l

/-- Trailing-comma repair, the first textual repair of the sanitizer. -/
def removeTrailingCommas (s : String) : String :=
  String.mk (removeTrailingCommasL s.data)

/-- State machine for single-line-comment removal
`re.sub(slash slash lazy-dot newline -> newline)`, src/main.py line 202.
`some buf` means a double slash and the reversed comment body `buf` have
been consumed; a comment with no terminating newline is not a match and
is restored verbatim. -/
def rlcAux : Option (List Char) → List Char → List Char
  | none, [] => []
  | none, '/' :: '/' :: rest => rlcAux (some ['/', '/']) rest
  | none, c :: rest => c :: rlcAux none rest
  | some buf, [] => buf.reverse
  | some buf, c :: rest =>
      if c = '\n' then '\n' :: rlcAux none rest
      else rlcAux (some (c :: buf)) rest

/-- Comment removal on a list. -/
def removeLineCommentsL (l : List Char) : List Char := rlcAux none l

/-- State machine for `re.sub(colon ws None -> colon space null)`,
src/main.py line 204.  `some buf` means a colon and the whitespace run
`buf.reverse` have been consumed.  Note: deliberately no trailing word
boundary, mirroring the source regex. -/
def fnAux : Option (List Char) → List Char → List Char
  | none, [] => []
  | none, c :: rest =>
      if c = ':' then fnAux (some []) rest else c :: fnAux none rest
  | some _, 'N' :: 'o' :: 'n' :: 'e' :: rest =>
      ':' :: ' ' :: 'n' :: 'u' :: 'l' :: 'l' :: fnAux none rest
  | some buf, [] => ':' :: buf.reverse
  | some buf, c :: rest =>
      if isPyWs c then fnAux (some (c :: buf)) rest
      else if c = ':' then ':' :: buf.reverse ++ fnAux (some []) rest
      else ':' :: buf.reverse ++ c :: fnAux none rest

/-- Head of the list is a word character (regex trailing word boundary
fails exactly when this holds). -/
def isWordHead : List Char → Bool
  | [] => false
  | c :: _ => isWordChar c

/-- State machine for `re.sub(colon ws word-boundary True word-boundary
-> colon space true)`, src/main.py line 205.  The leading boundary always
holds (the preceding character is a colon or whitespace); the trailing
boundary blocks the rewrite when a word character follows. -/
def ftAux : Option (List Char) → List Char → List Char
  | none, [] => []
  | none, c :: rest =>
      if c = ':' then ftAux (some []) rest else c :: ftAux none rest
  | some buf, 'T' :: 'r' :: 'u' :: 'e' :: rest =>
      if isWordHead rest then
        ':' :: buf.reverse ++ 'T' :: 'r' :: 'u' :: 'e' :: ftAux none rest
      else ':' :: ' ' :: 't' :: 'r' :: 'u' :: 'e' :: ftAux none rest
  | some buf, [] => ':' :: buf.reverse
  | some buf, c :: rest =>
      if isPyWs c then ftAux (some (c :: buf)) rest
      else if c = ':' then ':' :: buf.reverse ++ ftAux (some []) rest
      else ':' :: buf.reverse ++ c :: ftAux none rest

/-- State machine for `re.sub(colon ws word-boundary False word-boundary
-> colon space false)`, src/main.py line 206. -/
def ffAux : Option (List Char) → List Char → List Char
  | none, [] => []
  | none, c :: rest =>
      if c = ':' then ffAux (some []) rest else c :: ffAux none rest
  | some buf, 'F' :: 'a' :: 'l' :: 's' :: 'e' :: rest =>
      if isWordHead rest then
        ':' :: buf.reverse ++ 'F' :: 'a' :: 'l' :: 's' :: 'e' :: ffAux none rest
      else ':' :: ' ' :: 'f' :: 'a' :: 'l' :: 's' :: 'e' :: ffAux none rest
  | some buf, [] => ':' :: buf.reverse
  | some buf, c :: rest =>
      if isPyWs c then ffAux (some (c :: buf)) rest
      else if c = ':' then ':' :: buf.reverse ++ ffAux (some []) rest
      else ':' :: buf.reverse ++ c :: ffAux none rest

/-- The literal-rewrite step of the sanitizer, src/main.py lines 203-206:
rewrite None, then True, then False, in the fixed source order. -/
def fixLiterals (s : String) : String :=
  String.mk (ffAux none (ftAux none (fnAux none s.data)))

/-- The four textual repairs applied to the sliced candidate, followed by
the final strip, src/main.py lines 199-208. -/
def applyRepairs (t : List Char) : List Char :=
  pyStripL (ffAux none (ftAux none (fnAux none (rlcAux none (rtcAux none t)))))

/-- Model of `clean_json_text` on a character list, src/main.py lines 170-208.
Strip, extract a code block, strip, find the first opening brace (return
empty when absent), slice to the last closing brace (or repair a
truncation), then apply the textual repairs and strip. -/
def cleanJsonTextL (l : List Char) : List Char :=
  match pyFindIdx '\x7b' (pyStripL (extractBlock (pyStripL l))) with
  | none => []
  | some start => applyRepairs (sliceBraces (pyStripL (extractBlock (pyStripL l))) start)

/-- Model of `clean_json_text`, src/main.py lines 170-208. -/
def cleanJsonText (s : String) : String :=
  String.mk (cleanJsonTextL s.data)

/-- Whether the trailing-comma pattern (comma, whitespace, closing
bracket or closing brace) occurs somewhere in the text. -/
def closerAfterWs (l : List Char) : Bool :=
  match l.dropWhile isPyWs with
  | [] => false
  | c :: _ => c == ']' || c == '\x7d'

/-- Occurrence test for the trailing-comma pattern. -/
def htcL : List Char → Bool
  | [] => false
  | c :: rest => (c == ',' && closerAfterWs rest) || htcL rest

/-- String-level occurrence test for the trailing-comma pattern. -/
def hasTrailingCommaPattern (s : String) : Bool := htcL s.data

/-! ### Data model of grading -/

/-- A persisted `models.Question` row, as used by the individual
submission path (id, text, stored correct answer; `options` is only ever
interpolated into prompts and is omitted). -/
structure DBQuestion where
  id : Int
  text : String
  correct_answer : String
deriving DecidableEq

/-- A question dictionary stored on a student attempt (JSON), as used by
the student submission path: `q.get("id")` and `q.get("correct_answer")`
(the latter may be absent). -/
structure JQuestion where
  id : Int
  correct_answer : Option String
deriving DecidableEq

/-- One parsed entry of the LLM grading response:
`{ id, score?, correct?, feedback }`. -/
structure RawResult where
  id : Int
  score : Option ℚ
  correct : Option Bool
  feedback : String
deriving DecidableEq

/-- One processed grade entry as persisted in `attempt.feedback`.
`user_answer`/`correct_answer` are `none` when the corresponding
dictionary key is absent. -/
structure FeedbackItem where
  id : Int
  score : ℚ
  correct : Bool
  feedback : String
  user_answer : Option String
  correct_answer : Option String
deriving DecidableEq

/-- The `{ "score": ..., "results": [...] }` evaluation dictionary. -/
structure EvalResult where
  score : String
  results : List FeedbackItem
deriving DecidableEq

/-- Python `answers.get(key)` on the submitted-answers dictionary, modelled as
an association list keyed by strings. -/
def lookupAnswer (m : List (String × String)) (k : String) : Option String :=
  (m.find? (fun p => p.1 == k)).map Prod.snd

/-- Python `answers.get(key, default)`. -/
def lookupAnswerD (m : List (String × String)) (k : String) (d : String) : String :=
  match lookupAnswer m k with
  | some v => v
  | none => d

/-! ### Score Aggregator (src/main.py lines 364-378 and 2116-2131) -/

/-- Score coercion for one result entry: use the numeric score when the
key is present, otherwise derive 1 or 0 from a truthy `correct` field
(src/main.py lines 367-373). -/
def coerceScoreVal (r : RawResult) : ℚ :=
  match r.score with
  | some v => v
  | none => if r.correct = some true then 1 else 0

/-- Python `round(q * 100)`: round half to even, on exact rationals. -/
def pyRound2 (q : ℚ) : ℤ :=
  let n := q.num * 100
  let d := (q.den : ℤ)
  let f := Int.fdiv n d
  let r2 := n - f * d
  if 2 * r2 < d then f
  else if d < 2 * r2 then f + 1
  else if f % 2 = 0 then f else f + 1

/-- Decimal rendering of `round(q, 2)` as Python float `repr` prints it:
shortest digits, keeping one zero after the point when the rounded value
is integral (`2.0`), dropping a trailing zero otherwise (`1.5`, `0.33`,
`0.05`).  Totals of grade scores are nonnegative. -/
def reprRound2 (q : ℚ) : String :=
  let m := pyRound2 q
  let ip := m / 100
  let fp := (m % 100).toNat
  if fp = 0 then toString ip ++ ".0"
  else if fp % 10 = 0 then toString ip ++ "." ++ toString (fp / 10)
  else if fp < 10 then toString ip ++ ".0" ++ toString fp
  else toString ip ++ "." ++ toString fp

/-- Numerator formatting of the display score, src/main.py line 378:
an integer total renders as an integer, otherwise rounded to 2 places. -/
def formatObtained (q : ℚ) : String :=
  if q.den = 1 then toString q.num else reprRound2 q

/-- The canonical obtained/total display score; the denominator is the
count of graded entries. -/
def displayScoreString (total : ℚ) (n : Nat) : String :=
  formatObtained total ++ "/" ++ toString n

/-- Processing of the parsed grading results, src/main.py lines 365-378
(identically lines 2117-2131): coerce each score, accumulate the total,
and stamp `correct := score at least one half` on every entry. -/
def processResults (rs : List RawResult) : List FeedbackItem :=
  rs.map fun r =>
    ⟨r.id, coerceScoreVal r, decide ((1 : ℚ)/2 ≤ coerceScoreVal r), r.feedback, none, none⟩

/-- Results processing together with the display score. -/
def processAndScore (rs : List RawResult) : List FeedbackItem × String :=
  (processResults rs, displayScoreString ((rs.map coerceScoreVal).sum) rs.length)

/-! ### Grading Engine: AI evaluation helper
(`evaluate_submission_ai`, src/main.py lines 309-387) -/

/-- Model of `evaluate_submission_ai`.  The `llm` oracle stands for the LLM call
followed by `clean_json_text` and `json.loads` and the extraction of the
`results` list: `.error` is any exception inside the `try` block (LLM
failure, sanitize failure, parse failure), which the source turns into
the `0/0`-empty fallback dictionary; an empty api key short-circuits
before any call.  The `questions`/`answers` arguments only feed the
prompt. -/
def evaluateSubmissionAI (_questions : List DBQuestion)
    (_answers : List (String × String)) (apiKey : String)
    (llm : Except String (List RawResult)) : EvalResult :=
  if apiKey = "" then ⟨"0/0", []⟩
  else
    match llm with
    | .error _ => ⟨"0/0", []⟩
    | .ok rs => ⟨(processAndScore rs).2, (processAndScore rs).1⟩

/-! ### Grading Engine: individual submission path
(`submit_individual_attempt`, src/main.py lines 2783-2897) -/

/-- Python `api_key or "AI-dummy-key"`, src/main.py line 2829 (a missing or
empty stored key is falsy). -/
def resolveApiKey : Option String → String
  | some k => if k = "" then "AI-dummy-key" else k
  | none => "AI-dummy-key"

/-- One entry of the deterministic fallback grading, src/main.py lines
2836-2847: default the submitted answer to the empty string, compare
trimmed and lowercased, score 1 or 0. -/
def fallbackEntry (answers : List (String × String)) (q : DBQuestion) : FeedbackItem :=
  let ua := lookupAnswerD answers (toString q.id) ""
  let isCorrect := normAns ua == normAns q.correct_answer
  ⟨q.id, if isCorrect then 1 else 0, isCorrect,
    (if isCorrect then "Correct"
     else "Incorrect. The right answer was " ++ q.correct_answer),
    some ua, some q.correct_answer⟩

/-- The deterministic fallback grading applied to every stored question,
src/main.py lines 2834-2852. -/
def fallbackGrade (questions : List DBQuestion)
    (answers : List (String × String)) : List FeedbackItem :=
  questions.map (fallbackEntry answers)

/-- Correlation of one grade entry to a source question, src/main.py
lines 2859-2874: match by id first (`str(q.id) == str(item["id"])`,
which for integer ids is id equality), fall back to the entry's index
when it is within the stored question count, then default the echoed
answers and rewrite the entry id to the matched question's id; an
unmatched entry is returned unchanged. -/
def correlateItem (questions : List DBQuestion) (answers : List (String × String))
    (idx : Nat) (item : FeedbackItem) : FeedbackItem :=
  let byId := questions.find? (fun q => q.id == item.id)
  let qMatch := match byId with
    | some q => some q
    | none => questions.get? idx
  match qMatch with
  | some q =>
      { item with
        user_answer := match item.user_answer with
          | some v => some v
          | none => some (lookupAnswerD answers (toString q.id) ""),
        correct_answer := match item.correct_answer with
          | some v => some v
          | none => some q.correct_answer,
        id := q.id }
  | none => item

/-- The correlation loop over the enumerated feedback list. -/
def correlateFrom (questions : List DBQuestion) (answers : List (String × String)) :
    Nat → List FeedbackItem → List FeedbackItem
  | _, [] => []
  | idx, item :: rest =>
      correlateItem questions answers idx item ::
        correlateFrom questions answers (idx + 1) rest

/-- The loop `for idx, item in enumerate(final_feedback)`, src/main.py lines
2859-2874. -/
def correlateFeedback (questions : List DBQuestion) (answers : List (String × String))
    (items : List FeedbackItem) : List FeedbackItem :=
  correlateFrom questions answers 0 items

/-- The grading portion of `submit_individual_attempt`, src/main.py lines
2828-2877: AI evaluation, deterministic fallback when its result list is
empty, then correlation; the endpoint then persists score and feedback.
This portion is total: it never produces an error response. -/
def submitIndividualAttempt (questions : List DBQuestion)
    (answers : List (String × String)) (googleKey : Option String)
    (llm : Except String (List RawResult)) : EvalResult :=
  let aiResult := evaluateSubmissionAI questions answers (resolveApiKey googleKey) llm
  if aiResult.results = [] then
    ⟨toString ((fallbackGrade questions answers).countP (·.correct)) ++ "/" ++
        toString questions.length,
      correlateFeedback questions answers (fallbackGrade questions answers)⟩
  else
    ⟨aiResult.score, correlateFeedback questions answers aiResult.results⟩

/-! ### Grading Engine: student submission path
(`submit_student_quiz`, src/main.py lines 1998-2162) -/

/-- The objective-like format classification, src/main.py line 2030. -/
def isObjectiveFormat (fmt : String) : Bool :=
  (pyLower fmt) ∈ ["objective", "multiple-choice", "multiple_choice",
    "multiple choice", "true_false", "true or false"]

/-- One entry of the local objective grading, src/main.py lines
2038-2054: both the submitted answer and the stored correct answer must
be truthy (present and non-empty) before the trimmed, lowercased
comparison; otherwise the entry is marked incorrect. -/
def gradeObjectiveEntry (answers : List (String × String)) (q : JQuestion) : FeedbackItem :=
  let sa := lookupAnswer answers (toString q.id)
  let ca := q.correct_answer
  let isCorrect :=
    match sa, ca with
    | some a, some c => a != "" && c != "" && normAns a == normAns c
    | _, _ => false
  ⟨q.id, if isCorrect then 1 else 0, isCorrect,
    (if isCorrect then "Correct!"
     else "Incorrect. The correct answer was: " ++
       (match ca with | some c => c | none => "None")),
    none, none⟩

/-- The local objective grading path (no LLM call), src/main.py lines
2034-2059. -/
def gradeObjectiveStudent (questions : List JQuestion)
    (answers : List (String × String)) : EvalResult :=
  let results := questions.map (gradeObjectiveEntry answers)
  ⟨toString (results.countP (·.correct)) ++ "/" ++ toString questions.length,
    results⟩

/-- The grading portion of `submit_student_quiz`, src/main.py lines
2030-2136.  On the open-ended path the `llm` oracle again stands for the
LLM call plus sanitize plus parse; any exception there is re-raised as an
HTTP 500 error response (src/main.py lines 2134-2136) — there is no
fallback on this path, and a parsed-but-empty result list is kept. -/
def submitStudentQuiz (quizFormat : String) (questions : List JQuestion)
    (answers : List (String × String))
    (llm : Except String (List RawResult)) : Except String EvalResult :=
  if isObjectiveFormat quizFormat then
    .ok (gradeObjectiveStudent questions answers)
  else
    match llm with
    | .error e => .error ("AI Evaluation Failed: " ++ e)
    | .ok rs => .ok ⟨(processAndScore rs).2, (processAndScore rs).1⟩

/-! ### Attempt Reconciler: student generation
(`generate_student_quiz`, src/main.py lines 1881-1996) -/

/-- A `models.StudentAttempt` row for a fixed (student, quiz) pair:
its own generated question set and the recorded answers (`none` while
the attempt is pending). -/
structure SAttempt where
  questions : List JQuestion
  answers : Option (List (String × String))
deriving DecidableEq

/-- The pending-attempt query, src/main.py lines 1902-1906:
first attempt with no answers recorded. -/
def findPending (attempts : List SAttempt) : Option SAttempt :=
  attempts.find? (fun a => a.answers.isNone)

/-- Store freshly generated questions on the first pending attempt
(src/main.py lines 1975-1977). -/
def setPendingQuestions : List SAttempt → List JQuestion → List SAttempt
  | [], _ => []
  | a :: rest, qs =>
      if a.answers.isNone then { a with questions := qs } :: rest
      else a :: setPendingQuestions rest qs

/-- The response and post-state of a generate call: the returned question
set, the attempts for this (student, quiz) afterwards, and whether the
LLM was invoked. -/
structure GenOutcome where
  questions : List JQuestion
  attempts : List SAttempt
  llmCalled : Bool
deriving DecidableEq

/-- The reconciliation logic of `generate_student_quiz`, src/main.py
lines 1901-1996: reuse a pending attempt's non-empty question set without
calling the LLM; otherwise call the LLM (`.error` is surfaced as an HTTP
500) and store the questions on the pending attempt or a brand-new one. -/
def generateStudentQuiz (attempts : List SAttempt)
    (llm : Except String (List JQuestion)) : Except String GenOutcome :=
  match findPending attempts with
  | some a =>
      if a.questions ≠ [] then .ok ⟨a.questions, attempts, false⟩
      else
        match llm with
        | .error e => .error ("AI Generation Failed: " ++ e)
        | .ok qs => .ok ⟨qs, setPendingQuestions attempts qs, true⟩
  | none =>
      match llm with
      | .error e => .error ("AI Generation Failed: " ++ e)
      | .ok qs => .ok ⟨qs, attempts ++ [⟨qs, none⟩], true⟩

/-! ### Helper lemmas -/

theorem mem_dropWhile {p : Char → Bool} {l : List Char} {c : Char}
    (h : c ∈ l.dropWhile p) : c ∈ l := by
  induction l with
  | nil => simp at h
  | cons a as ih =>
    rw [List.dropWhile_cons] at h
    by_cases hp : p a
    · simp [hp] at h
      exact List.mem_cons_of_mem _ (ih h)
    · simpa [hp] using h

theorem mem_pyStripL {l : List Char} {c : Char} (h : c ∈ pyStripL l) : c ∈ l := by
  unfold pyStripL at h
  rw [List.mem_reverse] at h
  have h2 := mem_dropWhile h
  rw [List.mem_reverse] at h2
  exact mem_dropWhile h2

theorem splitFirst_subset {pat : List Char} :
    ∀ {l pre post : List Char}, splitFirst pat l = some (pre, post) →
      (∀ c ∈ pre, c ∈ l) ∧ (∀ c ∈ post, c ∈ l) := by
  intro l
  induction l with
  | nil => intro pre post h; simp [splitFirst] at h
  | cons a as ih =>
    intro pre post h
    rw [splitFirst] at h
    by_cases hp : pat.isPrefixOf (a :: as)
    · rw [if_pos hp] at h
      obtain ⟨h1, h2⟩ := Prod.mk.injEq _ _ _ _ ▸ Option.some.injEq _ _ ▸ h
      constructor
      · intro c hc; rw [← h1] at hc; simp at hc
      · intro c hc; rw [← h2] at hc; exact List.drop_subset _ _ hc
    · rw [if_neg hp] at h
      cases hrec : splitFirst pat as with
      | none => rw [hrec] at h; simp at h
      | some pq =>
        obtain ⟨pre', post'⟩ := pq
        rw [hrec] at h
        simp only [Option.some.injEq, Prod.mk.injEq] at h
        obtain ⟨h1, h2⟩ := h
        have := ih hrec
        constructor
        · intro c hc
          rw [← h1] at hc
          rcases List.mem_cons.mp hc with hc | hc
          · simp [hc]
          · exact List.mem_cons_of_mem _ (this.1 c hc)
        · intro c hc
          rw [← h2] at hc
          exact List.mem_cons_of_mem _ (this.2 c hc)

theorem mem_extractBlock {t : List Char} {c : Char} (h : c ∈ extractBlock t) : c ∈ t := by
  cases h1 : splitFirst fenceJson t with
  | some pq =>
    obtain ⟨pre1, after1⟩ := pq
    have hafter : ∀ x ∈ after1, x ∈ t := (splitFirst_subset h1).2
    cases h2 : splitFirst fence after1 with
    | some pq2 =>
      obtain ⟨pre2, post2⟩ := pq2
      have he : extractBlock t = pre2 := by simp [extractBlock, h1, h2]
      rw [he] at h
      exact hafter c ((splitFirst_subset h2).1 c h)
    | none =>
      have he : extractBlock t = after1 := by simp [extractBlock, h1, h2]
      rw [he] at h
      exact hafter c h
  | none =>
    cases h2 : splitFirst fence t with
    | none =>
      have he : extractBlock t = t := by simp [extractBlock, h1, h2]
      rw [he] at h
      exact h
    | some pq2 =>
      obtain ⟨pre2, after2⟩ := pq2
      have hafter : ∀ x ∈ after2, x ∈ t := (splitFirst_subset h2).2
      cases h3 : splitFirst fence after2 with
      | some pq3 =>
        obtain ⟨mid, post3⟩ := pq3
        have he : extractBlock t = pyStripL mid := by simp [extractBlock, h1, h2, h3]
        rw [he] at h
        exact hafter c ((splitFirst_subset h3).1 c (mem_pyStripL h))
      | none =>
        have he : extractBlock t = after2 := by simp [extractBlock, h1, h2, h3]
        rw [he] at h
        exact hafter c h

theorem pyFindIdx_eq_none {c : Char} {l : List Char} (h : c ∉ l) :
    pyFindIdx c l = none := by
  induction l with
  | nil => rfl
  | cons a as ih =>
    rw [pyFindIdx]
    have hne : a ≠ c := fun hc => h (hc ▸ List.mem_cons_self a as)
    rw [if_neg hne, ih (fun hc => h (List.mem_cons_of_mem a hc))]
    rfl

end Quigo

namespace Quigo

/-! ### Claim C4 -/

/-- Claim C4: for every input string that contains no opening-brace
character, the sanitizer returns the empty string (the failure signal),
never a repaired or truncated guess. -/
theorem cleanJsonText_no_brace_empty (s : String) (h : '\x7b' ∉ s.data) :
    cleanJsonText s = "" := by
  have h1 : '\x7b' ∉ pyStripL s.data := fun hm => h (mem_pyStripL hm)
  have h2 : '\x7b' ∉ extractBlock (pyStripL s.data) := fun hm => h1 (mem_extractBlock hm)
  have h3 : '\x7b' ∉ pyStripL (extractBlock (pyStripL s.data)) :=
    fun hm => h2 (mem_pyStripL hm)
  unfold cleanJsonText cleanJsonTextL
  rw [pyFindIdx_eq_none h3]

/-- Witness for C4 at a concrete brace-free input. -/
theorem cleanJsonText_no_brace_empty_witness :
    cleanJsonText "Sorry, I could not generate a quiz for that topic." = "" :=
  cleanJsonText_no_brace_empty _ (by decide)

/-! ### Claim C10 -/

/-- Claim C10: the AI evaluation helper is total; when the API key is
empty or anything in its try block fails (LLM call, sanitize, parse), it
returns the score-0/0, empty-results dictionary instead of raising, so
the caller always receives both keys. -/
theorem evaluateSubmissionAI_fallback_total (questions : List DBQuestion)
    (answers : List (String × String)) (apiKey : String)
    (llm : Except String (List RawResult))
    (h : apiKey = "" ∨ ∃ e, llm = Except.error e) :
    evaluateSubmissionAI questions answers apiKey llm = ⟨"0/0", []⟩ := by
  rcases h with h | ⟨e, rfl⟩
  · simp [evaluateSubmissionAI, h]
  · by_cases hk : apiKey = "" <;> simp [evaluateSubmissionAI, hk]

/-- Witness for C10: the empty-key case and the failing-call case. -/
theorem evaluateSubmissionAI_fallback_total_witness :
    evaluateSubmissionAI [] [] "" (.ok [⟨1, some 1, none, "fb"⟩]) = ⟨"0/0", []⟩ ∧
    evaluateSubmissionAI [] [] "some-key" (.error "timeout") = ⟨"0/0", []⟩ :=
  ⟨evaluateSubmissionAI_fallback_total [] [] "" _ (Or.inl rfl),
   evaluateSubmissionAI_fallback_total [] [] "some-key" _ (Or.inr ⟨"timeout", rfl⟩)⟩

/-! ### Claim C7 -/

/-- Claim C7: the display score is obtained/total with the float sum of
the entry scores rendered as an integer when integral and rounded to two
places otherwise, over the count of graded entries; in particular scores
1,1,0 give 2/3, scores 1,0.5,0.5 give 2/3, a single 1 gives 1/1 and a
single 0.33 gives 0.33/1. -/
theorem displayScore_examples :
    (evaluateSubmissionAI [] [] "key"
      (.ok [⟨1, some 1, none, "a"⟩, ⟨2, some 1, none, "b"⟩,
            ⟨3, some 0, none, "c"⟩])).score = "2/3" ∧
    (evaluateSubmissionAI [] [] "key"
      (.ok [⟨1, some 1, none, "a"⟩, ⟨2, some (1/2), none, "b"⟩,
            ⟨3, some (1/2), none, "c"⟩])).score = "2/3" ∧
    (evaluateSubmissionAI [] [] "key" (.ok [⟨1, some 1, none, "a"⟩])).score = "1/1" ∧
    (evaluateSubmissionAI [] [] "key"
      (.ok [⟨1, some (33/100), none, "a"⟩])).score = "0.33/1" := by
  refine ⟨?_, ?_, ?_, ?_⟩ <;> with_unfolding_all rfl

/-! ### Claim C9 -/

/-- Claim C9: when a pending attempt (no answers recorded) already holds
a non-empty question set, a generate call returns that question set
unchanged without invoking the LLM, mutating state, or creating a second
pending attempt; hence two sequential generate calls with no intervening
submit return identical question sets and leave exactly one pending
attempt. -/
theorem generate_reuses_pending (attempts : List SAttempt)
    (llm llm2 : Except String (List JQuestion)) (a : SAttempt)
    (hfind : findPending attempts = some a) (hq : a.questions ≠ [])
    (hone : attempts.countP (fun x => x.answers.isNone) = 1) :
    generateStudentQuiz attempts llm = .ok ⟨a.questions, attempts, false⟩ ∧
    generateStudentQuiz attempts llm2 = .ok ⟨a.questions, attempts, false⟩ ∧
    attempts.countP (fun x => x.answers.isNone) = 1 := by
  refine ⟨?_, ?_, hone⟩ <;> simp [generateStudentQuiz, hfind, hq]

/-- Witness for C9 at a one-attempt state holding one question. -/
theorem generate_reuses_pending_witness :
    generateStudentQuiz [⟨[⟨5, some "ans"⟩], none⟩] (.ok [⟨9, none⟩])
      = .ok ⟨[⟨5, some "ans"⟩], [⟨[⟨5, some "ans"⟩], none⟩], false⟩ ∧
    generateStudentQuiz [⟨[⟨5, some "ans"⟩], none⟩] (.error "down")
      = .ok ⟨[⟨5, some "ans"⟩], [⟨[⟨5, some "ans"⟩], none⟩], false⟩ ∧
    ([⟨[⟨5, some "ans"⟩], none⟩] : List SAttempt).countP (fun x => x.answers.isNone) = 1 :=
  generate_reuses_pending [⟨[⟨5, some "ans"⟩], none⟩] (.ok [⟨9, none⟩]) (.error "down")
    ⟨[⟨5, some "ans"⟩], none⟩ (by decide) (by decide) (by decide)

/-! ### Correlation lemmas -/

theorem correlateFrom_length (qs : List DBQuestion) (ans : List (String × String)) :
    ∀ (i : Nat) (items : List FeedbackItem),
      (correlateFrom qs ans i items).length = items.length := by
  intro i items
  induction items generalizing i with
  | nil => rfl
  | cons x xs ih => simp [correlateFrom, ih]

theorem correlateFrom_get (qs : List DBQuestion) (ans : List (String × String)) :
    ∀ (items : List FeedbackItem) (i idx : Nat) (h : idx < items.length)
      (h2 : idx < (correlateFrom qs ans i items).length),
      (correlateFrom qs ans i items).get ⟨idx, h2⟩ =
        correlateItem qs ans (i + idx) (items.get ⟨idx, h⟩) := by
  intro items
  induction items with
  | nil => intro i idx h h2; exact absurd h (by simp)
  | cons x xs ih =>
    intro i idx h h2
    cases idx with
    | zero => simp [correlateFrom]
    | succ n =>
      have hn : n < xs.length := Nat.lt_of_succ_lt_succ h
      have hn2 : n < (correlateFrom qs ans (i + 1) xs).length := by
        rw [correlateFrom_length]; exact hn
      have := ih (i + 1) n hn hn2
      simp only [correlateFrom, List.get_cons_succ]
      rw [this]
      congr 1
      omega

theorem correlateItem_of_find_some {qs : List DBQuestion} {ans : List (String × String)}
    {idx : Nat} {item : FeedbackItem} {q : DBQuestion}
    (h : qs.find? (fun p => p.id == item.id) = some q) :
    (correlateItem qs ans idx item).id = q.id := by
  simp [correlateItem, h]

theorem correlateItem_of_find_none_pos {qs : List DBQuestion} {ans : List (String × String)}
    {idx : Nat} {item : FeedbackItem}
    (h : qs.find? (fun p => p.id == item.id) = none) (hp : idx < qs.length) :
    (correlateItem qs ans idx item).id = (qs.get ⟨idx, hp⟩).id := by
  simp [correlateItem, h, List.getElem?_eq_getElem hp]

theorem correlateItem_of_find_none_out {qs : List DBQuestion} {ans : List (String × String)}
    {idx : Nat} {item : FeedbackItem}
    (h : qs.find? (fun p => p.id == item.id) = none) (hp : qs.length ≤ idx) :
    correlateItem qs ans idx item = item := by
  simp [correlateItem, h, List.getElem?_eq_none hp]

theorem correlateItem_id_mem {qs : List DBQuestion} {ans : List (String × String)}
    {idx : Nat} {item : FeedbackItem} (hm : item.id ∈ qs.map DBQuestion.id) :
    (correlateItem qs ans idx item).id = item.id := by
  obtain ⟨q, hq, hid⟩ := List.mem_map.mp hm
  cases hfind : qs.find? (fun p => p.id == item.id) with
  | some q' =>
    rw [correlateItem_of_find_some hfind]
    have := List.find?_some hfind
    simpa using this
  | none =>
    exact absurd (by simpa using List.find?_eq_none.mp hfind q hq) (by simp [hid])

theorem correlateFrom_map_id (qs : List DBQuestion) (ans : List (String × String)) :
    ∀ (i : Nat) (items : List FeedbackItem),
      (∀ item ∈ items, item.id ∈ qs.map DBQuestion.id) →
      (correlateFrom qs ans i items).map FeedbackItem.id = items.map FeedbackItem.id := by
  intro i items
  induction items generalizing i with
  | nil => intro _; rfl
  | cons x xs ih =>
    intro hmem
    simp only [correlateFrom, List.map_cons]
    rw [correlateItem_id_mem (hmem x (List.mem_cons_self x xs)),
      ih (i + 1) (fun item hit => hmem item (List.mem_cons_of_mem x hit))]

theorem fallbackGrade_map_id (qs : List DBQuestion) (ans : List (String × String)) :
    (fallbackGrade qs ans).map FeedbackItem.id = qs.map DBQuestion.id := by
  unfold fallbackGrade
  rw [List.map_map]
  rfl

/-! ### Claim C2 -/

/-- Claim C2: a grading entry whose index is within the stored question
count is always correlated to a stored question — by exact id match when
one exists, positionally otherwise — and its id field is rewritten to the
matched question's persisted id, so it never carries a foreign id. -/
theorem correlate_id_then_position (qs : List DBQuestion)
    (ans : List (String × String)) (items : List FeedbackItem) (idx : Nat)
    (h : idx < items.length) (hpos : idx < qs.length) :
    ∃ hlen : idx < (correlateFeedback qs ans items).length, ∃ q : DBQuestion,
      q ∈ qs ∧
      ((correlateFeedback qs ans items).get ⟨idx, hlen⟩).id = q.id ∧
      (q.id = (items.get ⟨idx, h⟩).id ∨
        ((∀ p ∈ qs, p.id ≠ (items.get ⟨idx, h⟩).id) ∧ q = qs.get ⟨idx, hpos⟩)) := by
  have hlen : idx < (correlateFeedback qs ans items).length := by
    unfold correlateFeedback
    rw [correlateFrom_length]
    exact h
  refine ⟨hlen, ?_⟩
  have hget := correlateFrom_get qs ans items 0 idx h hlen
  rw [Nat.zero_add] at hget
  cases hfind : qs.find? (fun p => p.id == (items.get ⟨idx, h⟩).id) with
  | some q =>
    refine ⟨q, List.mem_of_find?_eq_some hfind, ?_, Or.inl ?_⟩
    · show ((correlateFrom qs ans 0 items).get ⟨idx, hlen⟩).id = q.id
      rw [hget]
      exact correlateItem_of_find_some hfind
    · have := List.find?_some hfind
      simpa using this.symm
  | none =>
    refine ⟨qs.get ⟨idx, hpos⟩, List.get_mem qs idx hpos, ?_, Or.inr ⟨?_, rfl⟩⟩
    · show ((correlateFrom qs ans 0 items).get ⟨idx, hlen⟩).id = (qs.get ⟨idx, hpos⟩).id
      rw [hget]
      exact correlateItem_of_find_none_pos hfind hpos
    · intro p hp
      simpa using List.find?_eq_none.mp hfind p hp

/-- Witness for C2: a response renumbered 1..3 against stored ids
101, 102, 103 binds the first entry to the first stored question. -/
theorem correlate_id_then_position_witness :
    ∃ hlen : 0 < (correlateFeedback
        [⟨101, "q1", "A"⟩, ⟨102, "q2", "B"⟩, ⟨103, "q3", "C"⟩] []
        [⟨1, 1, true, "f", none, none⟩, ⟨2, 0, false, "f", none, none⟩,
         ⟨3, 1, true, "f", none, none⟩]).length,
      ∃ q : DBQuestion,
      q ∈ [⟨101, "q1", "A"⟩, ⟨102, "q2", "B"⟩, ⟨103, "q3", "C"⟩] ∧
      ((correlateFeedback
        [⟨101, "q1", "A"⟩, ⟨102, "q2", "B"⟩, ⟨103, "q3", "C"⟩] []
        [⟨1, 1, true, "f", none, none⟩, ⟨2, 0, false, "f", none, none⟩,
         ⟨3, 1, true, "f", none, none⟩]).get ⟨0, hlen⟩).id = q.id ∧
      (q.id = (([⟨1, 1, true, "f", none, none⟩, ⟨2, 0, false, "f", none, none⟩,
         ⟨3, 1, true, "f", none, none⟩] : List FeedbackItem).get ⟨0, by decide⟩).id ∨
        ((∀ p ∈ [⟨101, "q1", "A"⟩, ⟨102, "q2", "B"⟩, ⟨103, "q3", "C"⟩],
            DBQuestion.id p ≠ (([⟨1, 1, true, "f", none, none⟩,
              ⟨2, 0, false, "f", none, none⟩,
              ⟨3, 1, true, "f", none, none⟩] : List FeedbackItem).get ⟨0, by decide⟩).id) ∧
          q = ([⟨101, "q1", "A"⟩, ⟨102, "q2", "B"⟩,
            ⟨103, "q3", "C"⟩] : List DBQuestion).get ⟨0, by decide⟩)) :=
  correlate_id_then_position
    [⟨101, "q1", "A"⟩, ⟨102, "q2", "B"⟩, ⟨103, "q3", "C"⟩] []
    [⟨1, 1, true, "f", none, none⟩, ⟨2, 0, false, "f", none, none⟩,
     ⟨3, 1, true, "f", none, none⟩] 0 (by decide) (by decide)

/-! ### Claim C3 -/

/-- Counterexample to claim C3: an entry matched neither by id nor by
position is kept unchanged in the final feedback list, carrying its
foreign id 999, rather than being discarded. -/
theorem correlate_unmatched_kept_cex :
    correlateFeedback [⟨101, "q1", "Paris"⟩] [("101", "Paris")]
        [⟨1, 1, true, "good", none, none⟩, ⟨999, 0, false, "extra", none, none⟩]
      = [⟨101, 1, true, "good", some "Paris", some "Paris"⟩,
         ⟨999, 0, false, "extra", none, none⟩] ∧
    (999 : Int) ∉ ([⟨101, "q1", "Paris"⟩] : List DBQuestion).map DBQuestion.id := by
  refine ⟨by decide, by decide⟩

/-- Claim C3 as amended: an entry that cannot be matched by id or by
position is kept unchanged in the final feedback list (the correlation
loop is length-preserving), so it is propagated with its dangling
reference rather than discarded. -/
theorem correlate_unmatched_kept (qs : List DBQuestion)
    (ans : List (String × String)) (items : List FeedbackItem) (idx : Nat)
    (h : idx < items.length)
    (hfind : qs.find? (fun p => p.id == (items.get ⟨idx, h⟩).id) = none)
    (hout : qs.length ≤ idx) :
    (correlateFeedback qs ans items).length = items.length ∧
    ∃ hlen : idx < (correlateFeedback qs ans items).length,
      (correlateFeedback qs ans items).get ⟨idx, hlen⟩ = items.get ⟨idx, h⟩ := by
  have hl : (correlateFeedback qs ans items).length = items.length :=
    correlateFrom_length qs ans 0 items
  have hlen : idx < (correlateFeedback qs ans items).length := by rw [hl]; exact h
  refine ⟨hl, hlen, ?_⟩
  have hget := correlateFrom_get qs ans items 0 idx h hlen
  rw [Nat.zero_add] at hget
  show (correlateFrom qs ans 0 items).get ⟨idx, hlen⟩ = items.get ⟨idx, h⟩
  rw [hget]
  exact correlateItem_of_find_none_out hfind hout

/-- Witness for C3 at the concrete out-of-range entry. -/
theorem correlate_unmatched_kept_witness :
    (correlateFeedback [⟨101, "q1", "Paris"⟩] [("101", "Paris")]
        [⟨1, 1, true, "good", none, none⟩,
         ⟨999, 0, false, "extra", none, none⟩]).length =
      ([⟨1, 1, true, "good", none, none⟩,
        ⟨999, 0, false, "extra", none, none⟩] : List FeedbackItem).length ∧
    ∃ hlen : 1 < (correlateFeedback [⟨101, "q1", "Paris"⟩] [("101", "Paris")]
        [⟨1, 1, true, "good", none, none⟩,
         ⟨999, 0, false, "extra", none, none⟩]).length,
      (correlateFeedback [⟨101, "q1", "Paris"⟩] [("101", "Paris")]
        [⟨1, 1, true, "good", none, none⟩,
         ⟨999, 0, false, "extra", none, none⟩]).get ⟨1, hlen⟩ =
        ([⟨1, 1, true, "good", none, none⟩,
          ⟨999, 0, false, "extra", none, none⟩] : List FeedbackItem).get ⟨1, by decide⟩ :=
  correlate_unmatched_kept [⟨101, "q1", "Paris"⟩] [("101", "Paris")]
    [⟨1, 1, true, "good", none, none⟩, ⟨999, 0, false, "extra", none, none⟩]
    1 (by decide) (by decide) (by decide)

/-! ### Claim C1 -/

/-- Counterexample to claim C1: on the student-portal submission path an
open-ended quiz with a non-empty stored question set does not fall back
when the LLM grading call fails — the caller receives an error response —
and an empty validated result sequence is kept as an empty final result
set. -/
theorem studentSubmit_no_fallback_cex :
    submitStudentQuiz "theory" [⟨1, some "model answer"⟩] [("1", "attempt")]
        (.error "boom")
      = .error "AI Evaluation Failed: boom" ∧
    submitStudentQuiz "theory" [⟨1, some "model answer"⟩] [("1", "attempt")]
        (.ok [])
      = .ok ⟨"0/0", []⟩ := by
  exact ⟨rfl, rfl⟩

/-- Claim C1 as amended: in the individual-attempt submission path, when
the AI evaluation fails or returns an empty validated result sequence,
grading falls back to the deterministic exact-match comparator over every
stored question, producing exactly one grade entry per question — with
the stored question ids — and a non-empty result set whenever the stored
question set is non-empty; the path is total, so the caller never
receives an error response there. -/
theorem individualSubmit_fallback_one_per_question (qs : List DBQuestion)
    (ans : List (String × String)) (key : Option String)
    (llm : Except String (List RawResult))
    (h : (evaluateSubmissionAI qs ans (resolveApiKey key) llm).results = []) :
    (submitIndividualAttempt qs ans key llm).results.length = qs.length ∧
    (submitIndividualAttempt qs ans key llm).results.map FeedbackItem.id =
      qs.map DBQuestion.id ∧
    (qs ≠ [] → (submitIndividualAttempt qs ans key llm).results ≠ []) := by
  have hfb : submitIndividualAttempt qs ans key llm =
      ⟨toString ((fallbackGrade qs ans).countP (·.correct)) ++ "/" ++
          toString qs.length,
        correlateFeedback qs ans (fallbackGrade qs ans)⟩ := by
    simp only [submitIndividualAttempt]
    rw [if_pos h]
  rw [hfb]
  have hlen : (correlateFeedback qs ans (fallbackGrade qs ans)).length = qs.length := by
    unfold correlateFeedback
    rw [correlateFrom_length]
    unfold fallbackGrade
    exact List.length_map qs _
  refine ⟨hlen, ?_, ?_⟩
  · have hmem : ∀ item ∈ fallbackGrade qs ans, item.id ∈ qs.map DBQuestion.id := by
      intro item hit
      rw [← fallbackGrade_map_id qs ans]
      exact List.mem_map_of_mem _ hit
    unfold correlateFeedback
    rw [correlateFrom_map_id qs ans 0 _ hmem, fallbackGrade_map_id]
  · intro hne hcon
    have hcon2 : correlateFeedback qs ans (fallbackGrade qs ans) = [] := hcon
    rw [hcon2] at hlen
    exact hne (List.length_eq_zero.mp hlen.symm)

/-- Witness for C1 at a one-question quiz whose grading call fails. -/
theorem individualSubmit_fallback_one_per_question_witness :
    (submitIndividualAttempt [⟨7, "Q", "x"⟩] [("7", " X ")] none
        (.error "fail")).results.length =
      ([⟨7, "Q", "x"⟩] : List DBQuestion).length ∧
    (submitIndividualAttempt [⟨7, "Q", "x"⟩] [("7", " X ")] none
        (.error "fail")).results.map FeedbackItem.id =
      ([⟨7, "Q", "x"⟩] : List DBQuestion).map DBQuestion.id ∧
    (([⟨7, "Q", "x"⟩] : List DBQuestion) ≠ [] →
      (submitIndividualAttempt [⟨7, "Q", "x"⟩] [("7", " X ")] none
        (.error "fail")).results ≠ []) :=
  individualSubmit_fallback_one_per_question [⟨7, "Q", "x"⟩] [("7", " X ")] none
    (.error "fail") (by decide)

/-! ### Claim C8 -/

/-- Counterexample to claim C8: when the stored correct answer and the
submitted answer are both the empty string, their trimmed lowercased
forms match exactly, yet the student objective path scores the entry 0
(the truthiness guard precedes the comparison), not 1. -/
theorem objectiveGrading_empty_match_cex :
    normAns "" = normAns "" ∧
    gradeObjectiveEntry [("1", "")] ⟨1, some ""⟩ =
      ⟨1, 0, false, "Incorrect. The correct answer was: ", none, none⟩ := by
  exact ⟨rfl, by decide⟩

/-- Claim C8 as amended: in the student objective path, provided both the
submitted answer and the stored correct answer are present and non-empty,
the comparison is case-insensitive and whitespace-trimmed with exact
match scoring 1.0 and anything else 0.0, and the objective branch never
consults the LLM oracle; when either side is empty or missing the entry
scores 0.0 even if both sides trim to equal strings. -/
theorem objectiveGrading_nonempty_exact (ans : List (String × String))
    (q : JQuestion) (sa ca : String)
    (hsa : lookupAnswer ans (toString q.id) = some sa)
    (hca : q.correct_answer = some ca) (h1 : sa ≠ "") (h2 : ca ≠ "") :
    (gradeObjectiveEntry ans q).score =
      (if normAns sa = normAns ca then 1 else 0) ∧
    ((gradeObjectiveEntry ans q).correct = true ↔ normAns sa = normAns ca) ∧
    (∀ fmt qs a llm llm2, isObjectiveFormat fmt = true →
      submitStudentQuiz fmt qs a llm = submitStudentQuiz fmt qs a llm2) := by
  refine ⟨?_, ?_, ?_⟩
  · by_cases hEq : normAns sa = normAns ca <;>
      simp [gradeObjectiveEntry, hsa, hca, h1, h2, hEq]
  · by_cases hEq : normAns sa = normAns ca <;>
      simp [gradeObjectiveEntry, hsa, hca, h1, h2, hEq]
  · intro fmt qs a llm llm2 hf
    simp [submitStudentQuiz, hf]

/-- Witness for C8: a submitted answer of space-a-space matches the
stored correct answer capital-A and scores 1. -/
theorem objectiveGrading_nonempty_exact_witness :
    ((gradeObjectiveEntry [("1", " a ")] ⟨1, some "A"⟩).score =
      (if normAns " a " = normAns "A" then 1 else 0) ∧
    ((gradeObjectiveEntry [("1", " a ")] ⟨1, some "A"⟩).correct = true ↔
      normAns " a " = normAns "A") ∧
    (∀ fmt qs a llm llm2, isObjectiveFormat fmt = true →
      submitStudentQuiz fmt qs a llm = submitStudentQuiz fmt qs a llm2)) ∧
    (gradeObjectiveEntry [("1", " a ")] ⟨1, some "A"⟩).score = 1 :=
  ⟨objectiveGrading_nonempty_exact [("1", " a ")] ⟨1, some "A"⟩ " a " "A"
      (by decide) (by decide) (by decide) (by decide),
    by decide⟩

/-! ### Claim C6 -/

/-- Counterexample to claim C6: a word merely beginning with None in a
value position is rewritten, corrupting the text. -/
theorem fixLiterals_none_prefix_cex :
    fixLiterals ": Nonexistent" = ": nullxistent" ∧
    (": nullxistent" : String) ≠ ": Nonexistent" := by
  exact ⟨rfl, by decide⟩

/-- Claim C6 as amended: True and False are rewritten only as whole
tokens after a colon (a following word character blocks the rewrite) and
occurrences not after a colon are left unchanged; None, however, is
rewritten after a colon even when it merely begins a longer word, so such
text content is corrupted. -/
theorem fixLiterals_token_behavior :
    fixLiterals ": None" = ": null" ∧
    fixLiterals ":True" = ": true" ∧
    fixLiterals ": False," = ": false," ∧
    fixLiterals ": Truely" = ": Truely" ∧
    fixLiterals ": Falsehood" = ": Falsehood" ∧
    fixLiterals "None True False" = "None True False" ∧
    fixLiterals ": Nonexistent" = ": nullxistent" := by
  decide

/-! ### Claim C5 -/

/-- Counterexample to claim C5: the trailing-comma repair is not
idempotent — on a comma run each application removes only the comma
adjacent to the closer, so a second application changes the string
again. -/
theorem removeTrailingCommas_not_idempotent_cex :
    removeTrailingCommas (removeTrailingCommas ",,]") ≠
      removeTrailingCommas ",,]" ∧
    removeTrailingCommas ",,]" = ",]" ∧
    removeTrailingCommas ",]" = "]" := by
  refine ⟨by decide, rfl, rfl⟩

theorem closerAfterWs_cons_ws {c : Char} {rest : List Char} (h : isPyWs c = true) :
    closerAfterWs (c :: rest) = closerAfterWs rest := by
  simp [closerAfterWs, List.dropWhile_cons, h]

theorem closerAfterWs_cons_nws {c : Char} {rest : List Char} (h : isPyWs c = false) :
    closerAfterWs (c :: rest) = (c == ']' || c == '\x7d') := by
  simp [closerAfterWs, List.dropWhile_cons, h]

/-- The trailing-comma scanner leaves any text free of the
comma-whitespace-closer pattern unchanged, in both scanner states. -/
theorem rtc_fixed_of_no_pattern : ∀ (n : Nat) (l : List Char), l.length ≤ n →
    (htcL l = false → rtcAux none l = l) ∧
    (∀ buf : List Char, closerAfterWs l = false → htcL l = false →
      rtcAux (some buf) l = ',' :: buf.reverse ++ l) := by
  intro n
  induction n with
  | zero =>
    intro l hl
    have hnil : l = [] := List.eq_nil_of_length_eq_zero (Nat.le_zero.mp hl)
    subst hnil
    exact ⟨fun _ => rfl, fun buf _ _ => by simp [rtcAux]⟩
  | succ n ih =>
    intro l hl
    cases l with
    | nil => exact ⟨fun _ => rfl, fun buf _ _ => by simp [rtcAux]⟩
    | cons c rest =>
      have hr : rest.length ≤ n := by
        simp only [List.length_cons] at hl
        omega
      constructor
      · intro hh
        rw [htcL, Bool.or_eq_false_iff] at hh
        obtain ⟨hh1, hh2⟩ := hh
        by_cases hc : c = ','
        · subst hc
          have hcl : closerAfterWs rest = false := by simpa using hh1
          rw [rtcAux, if_pos rfl, (ih rest hr).2 [] hcl hh2]
          simp
        · rw [rtcAux, if_neg hc, (ih rest hr).1 hh2]
      · intro buf hclose hh
        rw [htcL, Bool.or_eq_false_iff] at hh
        obtain ⟨hh1, hh2⟩ := hh
        by_cases hcl : c = ']' ∨ c = '\x7d'
        · exfalso
          have hnws : isPyWs c = false := by
            rcases hcl with rfl | rfl <;> decide
          rw [closerAfterWs_cons_nws hnws] at hclose
          rcases hcl with rfl | rfl <;> exact absurd hclose (by decide)
        · by_cases hws : isPyWs c = true
          · have hc : c ≠ ',' := by
              intro hcc
              subst hcc
              exact absurd hws (by decide)
            rw [closerAfterWs_cons_ws hws] at hclose
            rw [rtcAux, if_neg hcl, if_pos hws,
              (ih rest hr).2 (c :: buf) hclose hh2]
            simp
          · have hwsf : isPyWs c = false := by simpa using hws
            by_cases hc : c = ','
            · subst hc
              have hcl2 : closerAfterWs rest = false := by simpa using hh1
              rw [rtcAux, if_neg hcl, if_neg (by simp [hwsf]), if_pos rfl,
                (ih rest hr).2 [] hcl2 hh2]
              simp
            · rw [rtcAux, if_neg hcl, if_neg (by simp [hwsf]), if_neg hc,
                (ih rest hr).1 hh2]

/-- Claim C5 as amended: the trailing-comma repair is idempotent exactly
when one application leaves no comma-whitespace-closer pattern; on comma
runs a second application removes a further comma, so idempotence is
conditional. -/
theorem removeTrailingCommas_idempotent_when_clean (s : String)
    (h : hasTrailingCommaPattern (removeTrailingCommas s) = false) :
    removeTrailingCommas (removeTrailingCommas s) = removeTrailingCommas s := by
  have h2 : htcL (rtcAux none s.data) = false := h
  have h3 := (rtc_fixed_of_no_pattern (rtcAux none s.data).length
    (rtcAux none s.data) le_rfl).1 h2
  exact congrArg String.mk h3

/-- Witness for C5: one application on comma-space-closer leaves no
pattern, and a second application is then the identity. -/
theorem removeTrailingCommas_idempotent_when_clean_witness :
    hasTrailingCommaPattern (removeTrailingCommas ", ]") = false ∧
    removeTrailingCommas (removeTrailingCommas ", ]") = removeTrailingCommas ", ]" :=
  ⟨by decide, removeTrailingCommas_idempotent_when_clean ", ]" (by decide)⟩

end Quigo
